import Mathlib

/-!
A shallow embedding of the core of git-pull-request.py: branch naming,
pull-request id extraction, the update state machine (update_branch,
continue_update, complete_update) and the merge, close and submit commands.
Side effects are made explicit: each command returns the list of attempted
mutations (shell commands, hosting API calls, writes of the directory-switch
breadcrumb file) together with its result; the outcome of every external
primitive is supplied by a GitEnv record of oracles.
-/

namespace GitPR

/-- Failure modes of the script. `userWarning` is the only exception the
script raises deliberately (the whole error taxonomy of the spec is carried
in its message and is caught by the top-level handler); `attributeError`
models calling a method on None (an unhandled crash); `unboundLocalError`
models reading a local variable that was never assigned (also unhandled). -/
inductive PyExc where
  | userWarning (msg : String)
  | attributeError
  | unboundLocalError (v : String)
  deriving DecidableEq

/-- Decidable equality for results, so that concrete runs evaluate. -/
instance instDecEqExcept {ε α : Type} [DecidableEq ε] [DecidableEq α] : DecidableEq (Except ε α)
  | Except.error a, Except.error b =>
    match decEq a b with
    | isTrue h => isTrue (h ▸ rfl)
    | isFalse h => isFalse (fun he => h (Except.error.inj he))
  | Except.error _, Except.ok _ => isFalse (fun he => Except.noConfusion he)
  | Except.ok _, Except.error _ => isFalse (fun he => Except.noConfusion he)
  | Except.ok a, Except.ok b =>
    match decEq a b with
    | isTrue h => isTrue (h ▸ rfl)
    | isFalse h => isFalse (fun he => h (Except.ok.inj he))

/-- The empty string (kept as a named constant). -/
def emptyStr : String := ""

/-- The literal branch-name format marker, pull-request followed by a hyphen. -/
def prLitStr : String := "pull-request-"

/-- The same literal as a character list; its length is 13, the slice bound
used by get_current_branch_name. -/
def prLit : List Char := prLitStr.data

/-- Value of the update-method option selecting a merge. -/
def mergeLit : String := "merge"

/-- Value of the update-method option selecting a rebase. -/
def rebaseLit : String := "rebase"

/-- The mainline branch name. -/
def masterLit : String := "master"

/-- Name of the local variable read before assignment in update_branch and
continue_update when the update-method is neither merge nor rebase. -/
def retName : String := "ret"

/-- Message of the InvalidBranchError raised by get_current_branch_name. -/
def msgInvalidBranch : String := "Invalid branch: not a pull request"

/-- Message of the InWorkDirectoryError raised at the top of update_branch. -/
def msgInWorkDir : String := "Cannot perform an update from within the work directory. If you are done fixing conflicts run gitpr continue-update to complete the update."

/-- Message raised when hard-resetting the work directory fails. -/
def msgCleanWorkDirFailed : String := "Cleaning up work directory failed, update not performed"

/-- Message raised when the checkout of the target branch fails inside the
work directory (the source interpolates the branch name; dropped here). -/
def msgCheckoutFailedWorkDir : String := "Could not checkout in the work directory, update not performed"

/-- Message raised when the checkout of the target branch fails in the
primary directory. -/
def msgCheckoutFailedUpdate : String := "Could not checkout, update not performed"

/-- Message of the ConflictError and UnresolvedConflictError: the merge or
rebase against master reported a nonzero exit. -/
def msgUpdateConflict : String := "Updating from master failed. Resolve conflicts and git add files, then run gitpr continue-update"

/-- Message raised when checking out master in the work directory fails. -/
def msgCheckoutMasterWork : String := "Could not checkout master branch in work directory"

/-- Message raised when resynchronising the primary directory fails. -/
def msgSyncFailed : String := "Syncing branch with work directory failed"

/-- Message raised when checking out the target branch back in the primary
directory fails. -/
def msgCheckoutBranchFailed : String := "Could not checkout branch"

/-- Message raised when a checkout of master fails in command_merge and
command_close. -/
def msgCheckoutMasterFailed : String := "Could not checkout master"

/-- Message raised when merging the pull-request branch into master fails. -/
def msgMergeMasterFailed : String := "Merge with master failed. Resolve conflicts, switch back into the pull request branch, and merge again"

/-- Message raised when deleting the local branch fails. -/
def msgDeleteBranchFailed : String := "Could not delete branch"

/-- Message of the NoReviewerError raised by command_submit. -/
def msgNoReviewer : String := "Could not determine a repo to submit this pull request to"

/-- Message raised when pushing the current branch to origin fails. -/
def msgPushFailed : String := "Could not push this branch to your origin"

/-- Message of the TransportError raised by github_json_request. -/
def msgGithub : String := "Error communicating with github"

/-- The decimal digit character for a value below ten. -/
def digitChar (d : Nat) : Char := Char.ofNat (48 + d)

/-- Numeric value of a decimal digit character. -/
def digitVal (c : Char) : Nat := c.toNat - 48

/-- Value of a list of decimal digit characters, as computed by the Python
int constructor on a digit string. -/
def digitsToNat (ds : List Char) : Nat := ds.foldl (fun a c => 10 * a + digitVal c) 0

/-- Fuel-indexed decimal rendering helper (most significant digit first). -/
def natDigitsAux : Nat → Nat → List Char
  | 0, _ => []
  | fuel + 1, n => if n < 10 then [digitChar n] else natDigitsAux fuel (n / 10) ++ [digitChar (n % 10)]

/-- Decimal digit list of a natural number: the Python rendering of an int
by the percent-s format used in build_branch_name. -/
def natDigits (n : Nat) : List Char := natDigitsAux (n + 1) n

/-- Greedy split of a list at the first character failing the predicate:
the pair of the maximal matching run and the remainder. This is how a
greedy character-class quantifier of the regex engine consumes input. -/
def splitWhile (p : Char → Bool) : List Char → List Char × List Char
  | [] => ([], [])
  | c :: t => if p c then ((splitWhile p t).1.cons c, (splitWhile p t).2) else ([], c :: t)

/-- Match a literal character list as a prefix, returning the remainder on
success; this is how the regex engine consumes a literal at the cursor. -/
def litPre : List Char → List Char → Option (List Char)
  | [], s => some s
  | _ :: _, [] => none
  | c :: cs, d :: ds => if c = d then litPre cs ds else none

/-- Embedding of re.search of the anchored pattern caret pull-request-
followed by a parenthesised group of one or more digits. Because of the
caret the search can only match at the very start, so it reduces to: consume
the literal, then greedily take at least one digit; group one is the maximal
digit run. Returns the digit run of group one. -/
def reMatchPullRequestId (s : List Char) : Option (List Char) :=
  match litPre prLit s with
  | none => none
  | some t =>
    let ds := (splitWhile Char.isDigit t).1
    if ds = [] then none else some ds

/-- Embedding of matching the pattern of three or more capitals, a hyphen
and one or more digits, anchored at the start of l. The greedy capital run
is the maximal uppercase run: any shorter run ends before another capital,
where the required hyphen cannot match, so backtracking never succeeds.
The digits are likewise taken greedily. Returns the matched text. -/
def reMatchIssueKeyAt (l : List Char) : Option (List Char) :=
  let ls := (splitWhile Char.isUpper l).1
  let rest := (splitWhile Char.isUpper l).2
  if 3 ≤ ls.length then
    if rest.head? = some '-' then
      let ds := (splitWhile Char.isDigit rest.tail).1
      if ds = [] then none else some (ls ++ '-' :: ds)
    else none
  else none

/-- Embedding of unanchored re.search of the issue-key pattern: scan left to
right and return the first position where the anchored match succeeds
(leftmost match, greedy inside), as build_pull_request_title uses it. -/
def reSearchIssueKey : List Char → Option (List Char)
  | [] => none
  | c :: cs =>
    match reMatchIssueKeyAt (c :: cs) with
    | some k => some k
    | none => reSearchIssueKey cs

/-- The pull-request snapshot fields used by branch naming: the number field
and the head ref field of the JSON record. -/
structure PullRequest where
  number : Nat
  headRef : String
  deriving DecidableEq

/-- build_branch_name: the local branch name a pull request is fetched into,
pull-request-NUMBER, with the issue key appended when the head ref starts
with one. The emptiness guard on group zero of the source is vacuous since
any match has at least five characters. -/
def build_branch_name (pr : PullRequest) : String :=
  let base := prLit ++ natDigits pr.number
  match reMatchIssueKeyAt pr.headRef.data with
  | some k => String.mk (base ++ '-' :: k)
  | none => String.mk base

/-- build_pull_request_title: the default pull-request title for a branch,
the first embedded issue key when present, else the branch name itself. The
emptiness guard on group one of the source is vacuous as above. -/
def build_pull_request_title (branch_name : String) : String :=
  match reSearchIssueKey branch_name.data with
  | some k => String.mk k
  | none => branch_name

/-- get_pull_request_ID: parses the pull-request number out of a branch
name. The source runs the anchored search and immediately calls group on
the result, so a failed search raises AttributeError (None has no attribute
group), an unhandled crash rather than a UserWarning. -/
def get_pull_request_ID (branch_name : String) : Except PyExc Nat :=
  match reMatchPullRequestId branch_name.data with
  | some ds => Except.ok (digitsToNat ds)
  | none => Except.error PyExc.attributeError

/-- Specification-side full match of the issue-key pattern: the candidate
decomposes as a run of at least three capitals, a hyphen, and a nonempty
run of digits. Stated structurally over the candidate, independent of the
scanning matcher above. -/
def isIssueKey (k : List Char) : Bool :=
  let ls := (splitWhile Char.isUpper k).1
  let rest := (splitWhile Char.isUpper k).2
  3 ≤ ls.length && rest.head? == some '-' && !rest.tail.isEmpty && rest.tail.all Char.isDigit

/-- Specification-side statement that k is the issue key anchored at the
start of l: k fully matches the pattern, is a prefix of l, and the next
character of l after k, if any, is not a digit (so the digit run of k is
the greedy, maximal one). -/
def specKeyAt (l k : List Char) : Bool :=
  isIssueKey k &&
    match litPre k l with
    | some rest =>
      match rest.head? with
      | some c => !c.isDigit
      | none => true
    | none => false

/-- Mutating external actions attempted by the commands, in order: process
directory changes, breadcrumb-file writes, shell git commands (keyed by the
directory they run in) and hosting API mutations. -/
inductive Eff where
  | osChdir (d : String)
  | breadcrumb (d : String)
  | gitResetClean (d : String)
  | gitCheckout (d b : String)
  | gitCheckoutMaster (d : String)
  | gitMergeMaster (d : String)
  | gitRebaseMaster (d : String)
  | gitCommit (d : String)
  | gitRebaseContinue (d : String)
  | gitMergeBranch (d b : String)
  | gitDeleteBranch (d b : String)
  | gitPush (d b : String)
  | apiClose (repo : String) (id : Nat)
  | apiComment (repo : String) (id : Nat) (c : String)
  | apiCreatePull (target head title body : String)
  | openUrl (u : String)
  deriving DecidableEq

/-- The configuration options the embedded fragment reads (the global
options dictionary, after load_options). workDir is None when unset; the
update method is a raw string, as in the source. -/
structure Options where
  workDir : Option String
  updateMethod : String
  mergeAutoClose : Bool
  closeDefaultComment : Option String
  submitOpenGithub : Bool

/-- Python truthiness of a string-valued option: None and the empty string
are falsy. -/
def optTruthy : Option String → Bool
  | none => false
  | some s => !(s == emptyStr)

/-- Oracles for every external primitive: which directories are work
directories (their .git config is a symlink), the current branch of each
directory, the original directory resolved through the symlink, and the
success of each git command, push and API call. -/
structure GitEnv where
  isWorkDirPath : String → Bool
  branchAt : String → String
  originalDirAt : String → String
  resetCleanOk : String → Bool
  checkoutOk : String → String → Bool
  checkoutMasterOk : String → Bool
  mergeMasterOk : String → Bool
  rebaseMasterOk : String → Bool
  commitOk : String → Bool
  rebaseContinueOk : String → Bool
  mergeBranchOk : String → String → Bool
  deleteBranchOk : String → String → Bool
  pushOk : String → String → Bool
  upstreamRepo : Option String
  githubOk : Bool
  createdPullUrl : String

/-- in_work_dir: whether the .git config of the current directory is a
symlink, the marker of the secondary work directory. -/
def in_work_dir (env : GitEnv) (cwd : String) : Bool := env.isWorkDirPath cwd

/-- get_current_branch_name: the current branch of the active directory;
when ensure is set, the first thirteen characters must equal the
pull-request- literal, else the InvalidBranchError UserWarning is raised. -/
def get_current_branch_name (env : GitEnv) (cwd : String) (ensure : Bool) : Except PyExc String :=
  let b := env.branchAt cwd
  if ensure && !(b.data.take 13 == prLit) then
    Except.error (PyExc.userWarning msgInvalidBranch)
  else
    Except.ok b

/-- complete_update: if the active directory is the work directory, check
out master there, switch back to the original directory (recording the
switch in the breadcrumb file), and resynchronise the primary checkout:
hard-reset when it is already on the target branch, else check the branch
out. Returns the trace of attempted mutations and the final active
directory. -/
def complete_update (env : GitEnv) (cwd branch : String) : List Eff × Except PyExc String :=
  if in_work_dir env cwd then
    if env.checkoutMasterOk cwd then
      let orig := env.originalDirAt cwd
      let t0 := [Eff.gitCheckoutMaster cwd, Eff.osChdir orig, Eff.breadcrumb orig]
      if env.branchAt orig == branch then
        (t0 ++ [Eff.gitResetClean orig],
          if env.resetCleanOk orig then Except.ok orig
          else Except.error (PyExc.userWarning msgSyncFailed))
      else
        (t0 ++ [Eff.gitCheckout orig branch],
          if env.checkoutOk orig branch then Except.ok orig
          else Except.error (PyExc.userWarning msgCheckoutBranchFailed))
    else
      ([Eff.gitCheckoutMaster cwd], Except.error (PyExc.userWarning msgCheckoutMasterWork))
  else
    ([], Except.ok cwd)

/-- update_branch: the Idle to Updating transition. Refuses to start from
inside the work directory; otherwise optionally switches into the
configured work directory (note: without writing the breadcrumb) and
hard-resets it, checks out the target branch, and applies the configured
update method. The local ret is assigned by the checkout (source line 788);
the merge and rebase branches reassign it, so with any other configured
method the following nonzero test reads the zero status of the successful
checkout and the run falls through to complete_update without performing
any update. On a conflict with a work directory in use the breadcrumb
records the work directory before the ConflictError. -/
def update_branch (opts : Options) (env : GitEnv) (cwd branch : String) : List Eff × Except PyExc String :=
  if in_work_dir env cwd then
    ([], Except.error (PyExc.userWarning msgInWorkDir))
  else
    let usingWd := optTruthy opts.workDir
    let cwd1 := if usingWd then opts.workDir.getD cwd else cwd
    let t1 : List Eff := if usingWd then [Eff.osChdir cwd1, Eff.gitResetClean cwd1] else []
    if usingWd && !(env.resetCleanOk cwd1) then
      (t1, Except.error (PyExc.userWarning msgCleanWorkDirFailed))
    else
      let t2 := t1 ++ [Eff.gitCheckout cwd1 branch]
      if !(env.checkoutOk cwd1 branch) then
        (t2, Except.error (PyExc.userWarning
          (if usingWd then msgCheckoutFailedWorkDir else msgCheckoutFailedUpdate)))
      else
        -- here ret holds the zero exit status of the successful checkout
        let ret : Bool :=
          if opts.updateMethod == mergeLit then env.mergeMasterOk cwd1
          else if opts.updateMethod == rebaseLit then env.rebaseMasterOk cwd1
          else true
        let t3 := t2 ++
          (if opts.updateMethod == mergeLit then [Eff.gitMergeMaster cwd1]
           else if opts.updateMethod == rebaseLit then [Eff.gitRebaseMaster cwd1]
           else [])
        if ret then
          let r := complete_update env cwd1 branch
          (t3 ++ r.1, r.2)
        else
          (t3 ++ (if usingWd then [Eff.breadcrumb cwd1] else []),
            Except.error (PyExc.userWarning msgUpdateConflict))

/-- continue_update: the Conflicted to Completed transition. Finishes the
in-progress operation (commit for merge, continue-rebase for rebase; the
same unassigned ret crash for any other method value), fails with the
UnresolvedConflictError when that still reports failure, then re-derives
the branch name from the current branch (with the pull-request guard) and
runs the completion step. -/
def continue_update (opts : Options) (env : GitEnv) (cwd : String) : List Eff × Except PyExc String :=
  let ret : Option Bool :=
    if opts.updateMethod == mergeLit then some (env.commitOk cwd)
    else if opts.updateMethod == rebaseLit then some (env.rebaseContinueOk cwd)
    else none
  let t1 : List Eff :=
    if opts.updateMethod == mergeLit then [Eff.gitCommit cwd]
    else if opts.updateMethod == rebaseLit then [Eff.gitRebaseContinue cwd]
    else []
  match ret with
  | none => (t1, Except.error (PyExc.unboundLocalError retName))
  | some false => (t1, Except.error (PyExc.userWarning msgUpdateConflict))
  | some true =>
    match get_current_branch_name env cwd true with
    | Except.error e => (t1, Except.error e)
    | Except.ok branch =>
      let r := complete_update env cwd branch
      (t1 ++ r.1, r.2)

/-- github_json_request, reduced to its mutation: the request is attempted
and fails with the transport UserWarning when the hosting side fails. -/
def github_request (env : GitEnv) (e : Eff) : List Eff × Except PyExc Unit :=
  ([e], if env.githubOk then Except.ok () else Except.error (PyExc.userWarning msgGithub))

/-- close_pull_request: substitute the configured default comment when none
is passed, post the comment when it is nonempty, then close the request. -/
def close_pull_request (opts : Options) (env : GitEnv) (repo : String) (id : Nat) (comment : Option String) : List Eff × Except PyExc Unit :=
  let c := match comment with
    | none => opts.closeDefaultComment
    | some s => some s
  match c with
  | some s =>
    if !(s == emptyStr) then
      match github_request env (Eff.apiComment repo id s) with
      | (t, Except.error e) => (t, Except.error e)
      | (t, Except.ok _) =>
        let r := github_request env (Eff.apiClose repo id)
        (t ++ r.1, r.2)
    else
      github_request env (Eff.apiClose repo id)
  | none => github_request env (Eff.apiClose repo id)

/-- command_merge: requires the current branch to be a pull-request branch
(the guard runs before any mutation), then checks out master, merges the
branch, deletes it, and optionally closes the remote pull request. -/
def command_merge (opts : Options) (env : GitEnv) (cwd repo : String) (comment : Option String) : List Eff × Except PyExc Unit :=
  match get_current_branch_name env cwd true with
  | Except.error e => ([], Except.error e)
  | Except.ok branch =>
    match get_pull_request_ID branch with
    | Except.error e => ([], Except.error e)
    | Except.ok id =>
      let t1 := [Eff.gitCheckoutMaster cwd]
      if !(env.checkoutMasterOk cwd) then
        (t1, Except.error (PyExc.userWarning msgCheckoutMasterFailed))
      else
        let t2 := t1 ++ [Eff.gitMergeBranch cwd branch]
        if !(env.mergeBranchOk cwd branch) then
          (t2, Except.error (PyExc.userWarning msgMergeMasterFailed))
        else
          let t3 := t2 ++ [Eff.gitDeleteBranch cwd branch]
          if !(env.deleteBranchOk cwd branch) then
            (t3, Except.error (PyExc.userWarning msgDeleteBranchFailed))
          else if opts.mergeAutoClose then
            let r := close_pull_request opts env repo id comment
            (t3 ++ r.1, r.2)
          else
            (t3, Except.ok ())

/-- command_close: requires the current branch to be a pull-request branch
(again before any mutation), reads the pull request for display, closes it
remotely (posting the comment first when nonempty), then checks out master
and deletes the local branch. -/
def command_close (opts : Options) (env : GitEnv) (cwd repo : String) (comment : Option String) : List Eff × Except PyExc Unit :=
  match get_current_branch_name env cwd true with
  | Except.error e => ([], Except.error e)
  | Except.ok branch =>
    match get_pull_request_ID branch with
    | Except.error e => ([], Except.error e)
    | Except.ok id =>
      if !env.githubOk then
        ([], Except.error (PyExc.userWarning msgGithub))
      else
        match close_pull_request opts env repo id comment with
        | (t1, Except.error e) => (t1, Except.error e)
        | (t1, Except.ok _) =>
          let t2 := t1 ++ [Eff.gitCheckoutMaster cwd]
          if !(env.checkoutMasterOk cwd) then
            (t2, Except.error (PyExc.userWarning msgCheckoutMasterFailed))
          else
            let t3 := t2 ++ [Eff.gitDeleteBranch cwd branch]
            if !(env.deleteBranchOk cwd branch) then
              (t3, Except.error (PyExc.userWarning msgDeleteBranchFailed))
            else
              (t3, Except.ok ())

/-- Whether an optional string is None or empty, the emptiness test used on
reviewer names in the source. -/
def noneOrEmpty : Option String → Bool
  | none => true
  | some s => s == emptyStr

/-- Reviewer resolution of main: the command-line reviewer argument when
nonempty, else the configured reviewer from git config. -/
def resolve_reviewer (cmdline cfg : Option String) : Option String :=
  if noneOrEmpty cmdline then cfg else cmdline

/-- command_submit: reads the current branch without the guard, falls back
from the passed reviewer to the repository name of the upstream remote, and
fails with the NoReviewerError when neither resolves to a nonempty value,
before pushing the branch or creating the remote pull request. Otherwise
pushes to origin and creates the pull request (head is user colon branch,
default title derived from the branch name), optionally opening the
result. -/
def command_submit (opts : Options) (env : GitEnv) (cwd repo user : String) (reviewer : Option String) (body title : Option String) : List Eff × Except PyExc Unit :=
  let branch := env.branchAt cwd
  let reviewer1 := if noneOrEmpty reviewer then env.upstreamRepo else reviewer
  match reviewer1 with
  | none => ([], Except.error (PyExc.userWarning msgNoReviewer))
  | some rev =>
    if rev == emptyStr then
      ([], Except.error (PyExc.userWarning msgNoReviewer))
    else
      let t1 := [Eff.gitPush cwd branch]
      if !(env.pushOk cwd branch) then
        (t1, Except.error (PyExc.userWarning msgPushFailed))
      else
        let body1 := match body with
          | none => emptyStr
          | some s => s
        let title1 := match title with
          | none => build_pull_request_title branch
          | some s => if s == emptyStr then build_pull_request_title branch else s
        match github_request env (Eff.apiCreatePull (repo.replace user rev) (String.append (String.append user (String.mk [':'])) branch) title1 body1) with
        | (t2, Except.error e) => (t1 ++ t2, Except.error e)
        | (t2, Except.ok _) =>
          (t1 ++ t2 ++ (if opts.submitOpenGithub then [Eff.openUrl env.createdPullUrl] else []),
            Except.ok ())

/-- The breadcrumb file model: chdir opens the well-known file for writing
(mode wb, which truncates) and writes the directory path, so the new
content is the path alone, independent of the previous content. Running a
trace threads every breadcrumb write through this overwrite. -/
def runBreadcrumb : List Eff → String → String
  | [], s => s
  | Eff.breadcrumb d :: t, _ => runBreadcrumb t d
  | _ :: t, s => runBreadcrumb t s

/-! Concrete data used by the closed instances further below. -/

/-- A work directory path. -/
def wdW : String := "workdir"

/-- The primary (original) directory path. -/
def origW : String := "orig"

/-- A pull-request branch name. -/
def brW : String := "pull-request-7"

/-- A head ref starting with an issue key. -/
def refPosW : String := "ABC-123-foo"

/-- A head ref with no issue key. -/
def refNegW : String := "misc-fix"

/-- The issue key of refPosW. -/
def keyW : String := "ABC-123"

/-- A branch name with an embedded issue key not at the start. -/
def titleInW : String := "xABC-12y"

/-- The embedded issue key of titleInW. -/
def titleKeyW : String := "ABC-12"

/-- An update-method value that is neither merge nor rebase. -/
def badMethodW : String := "fast-forward"

/-- A pull request whose head ref starts with an issue key. -/
def pr42W : PullRequest := ⟨42, refPosW⟩

/-- A pull request whose head ref has no issue key. -/
def pr7W : PullRequest := ⟨7, refNegW⟩

/-- Expected branch name for pr42W. -/
def bn42W : String := "pull-request-42-ABC-123"

/-- Expected branch name for pr7W. -/
def bn7W : String := "pull-request-7"

/-- Options with a configured work directory and the merge method. -/
def optsWdW : Options := ⟨some wdW, mergeLit, true, none, true⟩

/-- Options with no work directory and the merge method. -/
def optsW : Options := ⟨none, mergeLit, true, none, true⟩

/-- Options whose update method is neither merge nor rebase. -/
def optsBadW : Options := ⟨none, badMethodW, true, none, true⟩

/-- Environment where wdW is the work directory, every command succeeds,
the branch everywhere is brW and the original directory is origW. -/
def envW : GitEnv :=
  ⟨fun d => d == wdW, fun _ => brW, fun _ => origW, fun _ => true, fun _ _ => true,
    fun _ => true, fun _ => true, fun _ => true, fun _ => true, fun _ => true,
    fun _ _ => true, fun _ _ => true, fun _ _ => true, none, true, emptyStr⟩

/-- Environment whose current branch is master everywhere, with no work
directory and every command succeeding. -/
def envMasterW : GitEnv :=
  ⟨fun _ => false, fun _ => masterLit, fun _ => origW, fun _ => true, fun _ _ => true,
    fun _ => true, fun _ => true, fun _ => true, fun _ => true, fun _ => true,
    fun _ _ => true, fun _ _ => true, fun _ _ => true, none, true, emptyStr⟩

/-- Environment where the conflict-finishing commit still fails. -/
def envConflictW : GitEnv :=
  ⟨fun _ => false, fun _ => brW, fun _ => origW, fun _ => true, fun _ _ => true,
    fun _ => true, fun _ => true, fun _ => true, fun _ => false, fun _ => false,
    fun _ _ => true, fun _ _ => true, fun _ _ => true, none, true, emptyStr⟩

/-- Environment where the process is inside the work directory. -/
def envInWdW : GitEnv :=
  ⟨fun _ => true, fun _ => brW, fun _ => origW, fun _ => true, fun _ _ => true,
    fun _ => true, fun _ => true, fun _ => true, fun _ => true, fun _ => true,
    fun _ _ => true, fun _ _ => true, fun _ _ => true, none, true, emptyStr⟩

/-- Environment like envW but where the merge and rebase against master
report conflicts. -/
def envCfW : GitEnv :=
  ⟨fun d => d == wdW, fun _ => brW, fun _ => origW, fun _ => true, fun _ _ => true,
    fun _ => true, fun _ => false, fun _ => false, fun _ => true, fun _ => true,
    fun _ _ => true, fun _ _ => true, fun _ _ => true, none, true, emptyStr⟩

/-! Helper lemmas about the string and digit primitives. -/

@[simp]
theorem data_mk (l : List Char) : (String.mk l).data = l := rfl

theorem digitChar_isDigit {d : Nat} (h : d < 10) : (digitChar d).isDigit = true := by
  interval_cases d <;> decide

theorem digitVal_digitChar {d : Nat} (h : d < 10) : digitVal (digitChar d) = d := by
  interval_cases d <;> decide

theorem natDigitsAux_congr : ∀ f g n, n < f → n < g → natDigitsAux f n = natDigitsAux g n := by
  intro f
  induction f with
  | zero => intro g n h; omega
  | succ f ih =>
    intro g n hf hg
    cases g with
    | zero => omega
    | succ g =>
      simp only [natDigitsAux]
      by_cases h10 : n < 10
      · simp [h10]
      · have hdiv : n / 10 < n := Nat.div_lt_self (by omega) (by omega)
        simp only [h10, if_false]
        rw [ih g (n / 10) (by omega) (by omega)]

theorem natDigits_eq (n : Nat) :
    natDigits n = if n < 10 then [digitChar n] else natDigits (n / 10) ++ [digitChar (n % 10)] := by
  show natDigitsAux (n + 1) n = _
  simp only [natDigitsAux]
  by_cases h10 : n < 10
  · simp [h10]
  · have hdiv : n / 10 < n := Nat.div_lt_self (by omega) (by omega)
    simp only [h10, if_false]
    rw [natDigitsAux_congr n (n / 10 + 1) (n / 10) (by omega) (by omega)]
    rfl

theorem natDigits_ne_nil (n : Nat) : natDigits n ≠ [] := by
  rw [natDigits_eq]
  split <;> simp

theorem natDigits_isDigit (n : Nat) : ∀ c ∈ natDigits n, c.isDigit = true := by
  induction n using Nat.strong_induction_on with
  | _ n ih =>
    rw [natDigits_eq]
    by_cases h10 : n < 10
    · simp only [h10, if_true]
      intro c hc
      rw [List.mem_singleton] at hc
      subst hc
      exact digitChar_isDigit h10
    · simp only [h10, if_false]
      intro c hc
      rw [List.mem_append, List.mem_singleton] at hc
      rcases hc with hc | hc
      · exact ih (n / 10) (Nat.div_lt_self (by omega) (by omega)) c hc
      · subst hc
        exact digitChar_isDigit (Nat.mod_lt _ (by omega))

theorem digitsToNat_append (xs : List Char) (c : Char) :
    digitsToNat (xs ++ [c]) = 10 * digitsToNat xs + digitVal c := by
  simp [digitsToNat, List.foldl_append]

theorem digitsToNat_natDigits (n : Nat) : digitsToNat (natDigits n) = n := by
  induction n using Nat.strong_induction_on with
  | _ n ih =>
    rw [natDigits_eq]
    by_cases h10 : n < 10
    · simp only [h10, if_true]
      simp [digitsToNat, digitVal_digitChar h10]
    · simp only [h10, if_false]
      rw [digitsToNat_append, ih (n / 10) (Nat.div_lt_self (by omega) (by omega)),
        digitVal_digitChar (Nat.mod_lt _ (by omega))]
      omega

/-! Helper lemmas about the greedy splitter and the literal matcher. -/

theorem splitWhile_append (p : Char → Bool) : ∀ l : List Char, (splitWhile p l).1 ++ (splitWhile p l).2 = l := by
  intro l
  induction l with
  | nil => rfl
  | cons c t ih =>
    simp only [splitWhile]
    cases h : p c with
    | false => simp
    | true => simpa using ih

theorem splitWhile_fst_mem (p : Char → Bool) : ∀ l c, c ∈ (splitWhile p l).1 → p c = true := by
  intro l
  induction l with
  | nil => intro c hc; simp [splitWhile] at hc
  | cons d t ih =>
    intro c hc
    simp only [splitWhile] at hc
    cases h : p d with
    | false => rw [h] at hc; simp at hc
    | true =>
      rw [h] at hc
      simp only [if_true] at hc
      rcases List.mem_cons.mp hc with hc | hc
      · subst hc; exact h
      · exact ih c hc

theorem splitWhile_snd_head (p : Char → Bool) : ∀ l c, (splitWhile p l).2.head? = some c → p c = false := by
  intro l
  induction l with
  | nil => intro c hc; simp [splitWhile] at hc
  | cons d t ih =>
    intro c hc
    simp only [splitWhile] at hc
    cases h : p d with
    | false =>
      rw [h] at hc
      simp only [if_false, List.head?] at hc
      cases hc
      exact h
    | true =>
      rw [h] at hc
      simp only [if_true] at hc
      exact ih c hc

theorem splitWhile_unique (p : Char → Bool) : ∀ xs ys : List Char,
    (∀ c ∈ xs, p c = true) → (∀ c, ys.head? = some c → p c = false) →
    splitWhile p (xs ++ ys) = (xs, ys) := by
  intro xs
  induction xs with
  | nil =>
    intro ys _ hy
    cases ys with
    | nil => rfl
    | cons c t =>
      simp only [List.nil_append, splitWhile]
      rw [hy c rfl]
      simp
  | cons d xs ih =>
    intro ys hx hy
    simp only [List.cons_append, splitWhile]
    rw [hx d (List.mem_cons_self d xs)]
    simp only [if_true, List.append_eq]
    rw [ih ys (fun c hc => hx c (List.mem_cons_of_mem d hc)) hy]

theorem splitWhile_fst_nil (p : Char → Bool) : ∀ l c, (splitWhile p l).1 = [] → l.head? = some c → p c = false := by
  intro l
  cases l with
  | nil => intro c _ hc; cases hc
  | cons d t =>
    intro c h1 hc
    have hdc : d = c := by
      simp only [List.head?] at hc
      exact Option.some.inj hc
    subst hdc
    simp only [splitWhile] at h1
    cases h : p d with
    | false => rfl
    | true => rw [h] at h1; simp at h1

theorem litPre_eq_some : ∀ pre s r : List Char, litPre pre s = some r ↔ s = pre ++ r := by
  intro pre
  induction pre with
  | nil =>
    intro s r
    constructor
    · intro h
      simp only [litPre] at h
      cases h
      rfl
    · intro h
      subst h
      rfl
  | cons c cs ih =>
    intro s r
    cases s with
    | nil =>
      constructor
      · intro h; simp [litPre] at h
      · intro h; simp at h
    | cons d ds =>
      constructor
      · intro h
        simp only [litPre] at h
        by_cases hcd : c = d
        · subst hcd
          rw [if_pos rfl] at h
          rw [(ih ds r).mp h, List.cons_append]
        · rw [if_neg hcd] at h
          cases h
      · intro h
        rw [List.cons_append] at h
        injection h with h1 h2
        subst h1
        simp only [litPre, if_pos rfl]
        exact (ih ds r).mpr h2

theorem litPre_self (pre r : List Char) : litPre pre (pre ++ r) = some r :=
  (litPre_eq_some pre (pre ++ r) r).mpr rfl

/-! The correspondence between the scanning issue-key matcher and the
structural specification predicate. -/

theorem reMatchIssueKeyAt_iff (l k : List Char) :
    reMatchIssueKeyAt l = some k ↔ specKeyAt l k = true := by
  constructor
  · intro h
    simp only [reMatchIssueKeyAt] at h
    set ls := (splitWhile Char.isUpper l).1 with hlsdef
    set rest := (splitWhile Char.isUpper l).2 with hrestdef
    by_cases h3 : 3 ≤ ls.length
    case neg => rw [if_neg h3] at h; cases h
    rw [if_pos h3] at h
    by_cases hh : rest.head? = some '-'
    case neg => rw [if_neg hh] at h; cases h
    rw [if_pos hh] at h
    set ds := (splitWhile Char.isDigit rest.tail).1 with hdsdef
    set rest2 := (splitWhile Char.isDigit rest.tail).2 with hrest2def
    by_cases hds : ds = []
    case pos => rw [if_pos hds] at h; cases h
    rw [if_neg hds] at h
    have hk := Option.some.inj h
    have hlsplit : ls ++ rest = l := by
      rw [hlsdef, hrestdef]; exact splitWhile_append Char.isUpper l
    have hlsup : ∀ c ∈ ls, Char.isUpper c = true := by
      rw [hlsdef]; exact splitWhile_fst_mem Char.isUpper l
    have htsplit : ds ++ rest2 = rest.tail := by
      rw [hdsdef, hrest2def]; exact splitWhile_append Char.isDigit rest.tail
    have hdsdig : ∀ c ∈ ds, Char.isDigit c = true := by
      rw [hdsdef]; exact splitWhile_fst_mem Char.isDigit rest.tail
    have hr2head : ∀ c, rest2.head? = some c → Char.isDigit c = false := by
      rw [hrest2def]; exact splitWhile_snd_head Char.isDigit rest.tail
    have hresteq : rest = '-' :: rest.tail := by
      cases hr : rest with
      | nil => rw [hr] at hh; cases hh
      | cons c t =>
        rw [hr] at hh
        simp only [List.head?] at hh
        have hc : c = '-' := Option.some.inj hh
        subst hc
        rfl
    have hsk : splitWhile Char.isUpper k = (ls, '-' :: ds) := by
      rw [← hk]
      exact splitWhile_unique Char.isUpper ls ('-' :: ds) hlsup
        (by intro c hc; simp only [List.head?] at hc; have hc2 := Option.some.inj hc; subst hc2; decide)
    have hl2 : l = k ++ rest2 := by
      rw [← hk]
      conv_lhs => rw [← hlsplit, hresteq, ← htsplit]
      simp [List.append_assoc]
    have hik : isIssueKey k = true := by
      simp only [isIssueKey, hsk]
      rcases List.exists_cons_of_ne_nil hds with ⟨d, t, hdt⟩
      have hd := hdsdig d (by rw [hdt]; exact List.mem_cons_self d t)
      have ht : ∀ x ∈ t, Char.isDigit x = true :=
        fun x hx => hdsdig x (by rw [hdt]; exact List.mem_cons_of_mem d hx)
      rw [hdt]
      simp only [List.head?_cons, List.tail_cons, List.isEmpty_cons]
      simp [h3, hd, List.all_eq_true]
      exact ht
    simp only [specKeyAt, hik, Bool.true_and]
    have hlp : litPre k l = some rest2 := by
      rw [hl2]; exact litPre_self k rest2
    rw [hlp]
    rcases hr2 : rest2.head? with _ | c
    · simp [hr2]
    · simp [hr2, hr2head c hr2]
  · intro h
    simp only [specKeyAt, Bool.and_eq_true] at h
    obtain ⟨hik, hmatch⟩ := h
    rcases hlp : litPre k l with _ | rest
    · rw [hlp] at hmatch; cases hmatch
    rw [hlp] at hmatch
    have hl : l = k ++ rest := (litPre_eq_some k l rest).mp hlp
    have hresthead : ∀ c, rest.head? = some c → Char.isDigit c = false := by
      intro c hc
      replace hmatch : (match rest.head? with
        | some c2 => !c2.isDigit
        | none => true) = true := hmatch
      rw [hc] at hmatch
      simp only [Bool.not_eq_true'] at hmatch
      exact hmatch
    simp only [isIssueKey, Bool.and_eq_true] at hik
    obtain ⟨⟨⟨h3, hhead⟩, hne⟩, hall⟩ := hik
    set ls := (splitWhile Char.isUpper k).1 with hlsdef
    set rest0 := (splitWhile Char.isUpper k).2 with hrest0def
    have hks : ls ++ rest0 = k := by
      rw [hlsdef, hrest0def]; exact splitWhile_append Char.isUpper k
    have hup : ∀ c ∈ ls, Char.isUpper c = true := by
      rw [hlsdef]; exact splitWhile_fst_mem Char.isUpper k
    have hhead2 : rest0.head? = some '-' := by
      exact eq_of_beq hhead
    have hr0 : rest0 = '-' :: rest0.tail := by
      cases hr : rest0 with
      | nil => rw [hr] at hhead2; cases hhead2
      | cons c t =>
        rw [hr] at hhead2
        simp only [List.head?] at hhead2
        have hc : c = '-' := Option.some.inj hhead2
        subst hc
        rfl
    set ds := rest0.tail with hdsdef
    have hne2 : ds ≠ [] := by
      intro hdse
      rw [hdse] at hne
      simp at hne
    have hdig : ∀ c ∈ ds, Char.isDigit c = true := by
      intro c hc
      exact List.all_eq_true.mp hall c hc
    have h3p : 3 ≤ ls.length := of_decide_eq_true h3
    have hleq : l = ls ++ '-' :: (ds ++ rest) := by
      rw [hl, ← hks, hr0]
      simp [List.append_assoc]
    have hsu : splitWhile Char.isUpper l = (ls, '-' :: (ds ++ rest)) := by
      rw [hleq]
      exact splitWhile_unique Char.isUpper ls ('-' :: (ds ++ rest)) hup
        (by intro c hc; simp only [List.head?] at hc; have hc2 := Option.some.inj hc; subst hc2; decide)
    have hsd : splitWhile Char.isDigit (ds ++ rest) = (ds, rest) :=
      splitWhile_unique Char.isDigit ds rest hdig hresthead
    simp only [reMatchIssueKeyAt, hsu, List.head?_cons, List.tail_cons, hsd]
    simp [h3p, hne2]
    rw [← hks, hr0]

theorem specKeyAt_false_of_none {l : List Char} (h : reMatchIssueKeyAt l = none) :
    ∀ k, specKeyAt l k = false := by
  intro k
  cases hs : specKeyAt l k with
  | false => rfl
  | true =>
    have hm := (reMatchIssueKeyAt_iff l k).mpr hs
    rw [h] at hm
    cases hm

theorem reMatch_none_of_all_false {l : List Char} (h : ∀ k, specKeyAt l k = false) :
    reMatchIssueKeyAt l = none := by
  cases hm : reMatchIssueKeyAt l with
  | none => rfl
  | some k =>
    have hs := (reMatchIssueKeyAt_iff l k).mp hm
    rw [h k] at hs
    cases hs

theorem reMatchIssueKeyAt_nil : reMatchIssueKeyAt [] = none := by decide

theorem reSearch_of_matchAt : ∀ (l : List Char) (i : Nat) (k : List Char),
    reMatchIssueKeyAt (l.drop i) = some k →
    (∀ j, j < i → reMatchIssueKeyAt (l.drop j) = none) →
    reSearchIssueKey l = some k := by
  intro l
  induction l with
  | nil =>
    intro i k h _
    rw [List.drop_nil, reMatchIssueKeyAt_nil] at h
    cases h
  | cons c t ih =>
    intro i k h hnone
    cases i with
    | zero =>
      rw [List.drop_zero] at h
      simp only [reSearchIssueKey, h]
    | succ i =>
      have h0 : reMatchIssueKeyAt (c :: t) = none := by
        have := hnone 0 (Nat.succ_pos i)
        rwa [List.drop_zero] at this
      simp only [reSearchIssueKey, h0]
      rw [List.drop_succ_cons] at h
      refine ih i k h ?_
      intro j hj
      have := hnone (j + 1) (Nat.succ_lt_succ hj)
      rwa [List.drop_succ_cons] at this

theorem reSearch_none_of : ∀ l : List Char,
    (∀ i, reMatchIssueKeyAt (l.drop i) = none) → reSearchIssueKey l = none := by
  intro l
  induction l with
  | nil => intro _; rfl
  | cons c t ih =>
    intro h
    have h0 := h 0
    rw [List.drop_zero] at h0
    simp only [reSearchIssueKey, h0]
    refine ih ?_
    intro i
    have := h (i + 1)
    rwa [List.drop_succ_cons] at this

/-! The breadcrumb-file semantics. -/

theorem runBreadcrumb_append : ∀ t u : List Eff, ∀ s,
    runBreadcrumb (t ++ u) s = runBreadcrumb u (runBreadcrumb t s) := by
  intro t
  induction t with
  | nil => intro u s; rfl
  | cons e t ih =>
    intro u s
    cases e <;> simp only [List.cons_append, runBreadcrumb] <;> apply ih

theorem runBreadcrumb_last (t : List Eff) (d s : String) :
    runBreadcrumb (t ++ [Eff.breadcrumb d]) s = d := by
  rw [runBreadcrumb_append]
  rfl

/-! The claims. -/

/-- C3: for every PullRequest (any number, any head ref), extracting the
pull-request id from the derived branch name recovers the number: the
branch-name derivation and the id extraction form a round trip. -/
theorem round_trip_id (pr : PullRequest) :
    get_pull_request_ID (build_branch_name pr) = Except.ok pr.number := by
  have hnd : ∀ ys : List Char, (∀ c, ys.head? = some c → Char.isDigit c = false) →
      get_pull_request_ID (String.mk (prLit ++ (natDigits pr.number ++ ys))) = Except.ok pr.number := by
    intro ys hys
    have hsp : splitWhile Char.isDigit (natDigits pr.number ++ ys) = (natDigits pr.number, ys) :=
      splitWhile_unique Char.isDigit _ ys (natDigits_isDigit pr.number) hys
    simp only [get_pull_request_ID, reMatchPullRequestId, data_mk, litPre_self, hsp]
    rw [if_neg (natDigits_ne_nil pr.number)]
    simp [digitsToNat_natDigits]
  cases hm : reMatchIssueKeyAt pr.headRef.data with
  | none =>
    simp only [build_branch_name, hm]
    have h := hnd [] (by intro c hc; cases hc)
    rw [List.append_nil] at h
    exact h
  | some k =>
    simp only [build_branch_name, hm]
    have h := hnd ('-' :: k) (by
      intro c hc
      simp only [List.head?_cons] at hc
      have hc2 := Option.some.inj hc
      subst hc2
      decide)
    rw [← List.append_assoc] at h
    exact h

/-- Witness for C3: the round trip evaluated on the pull request number 42
with an issue-keyed head ref. -/
theorem round_trip_id_w : get_pull_request_ID (build_branch_name pr42W) = Except.ok 42 :=
  round_trip_id pr42W

/-- C4: when the head ref starts with an issue key (three or more capitals,
a hyphen, digits, greedily matched: specKeyAt), the derived branch name is
pull-request-NUMBER-KEY, ending in that exact key; otherwise it is exactly
pull-request-NUMBER. The derivation is a total function with no error
outcome. -/
theorem build_branch_name_spec (pr : PullRequest) :
    (∀ k : List Char, specKeyAt pr.headRef.data k = true →
      build_branch_name pr = String.mk ((prLit ++ natDigits pr.number) ++ '-' :: k) ∧
      k <:+ (build_branch_name pr).data) ∧
    ((∀ k, specKeyAt pr.headRef.data k = false) →
      build_branch_name pr = String.mk (prLit ++ natDigits pr.number)) := by
  constructor
  · intro k hk
    have hm := (reMatchIssueKeyAt_iff pr.headRef.data k).mpr hk
    constructor
    · simp only [build_branch_name, hm]
    · simp only [build_branch_name, hm, data_mk]
      exact ⟨(prLit ++ natDigits pr.number) ++ ['-'], by simp⟩
  · intro hk
    have hm := reMatch_none_of_all_false hk
    simp only [build_branch_name, hm]

/-- Witness for C4: the derivation evaluated on the two spec examples, a
head ref starting with the key ABC-123 and one with no key. -/
theorem build_branch_name_spec_w :
    build_branch_name pr42W = bn42W ∧ build_branch_name pr7W = bn7W := by
  constructor
  · have h := (build_branch_name_spec pr42W).1 keyW.data (by decide)
    rw [h.1]
    decide
  · have h := (build_branch_name_spec pr7W).2 (specKeyAt_false_of_none (by decide))
    rw [h]
    decide

/-- C8: the default title of a branch is the leftmost embedded issue key
when one occurs anywhere in the name (the key at the least starting
position, greedily matched), else the branch name itself unchanged. -/
theorem build_pull_request_title_spec (b : String) :
    (∀ (i : Nat) (k : List Char), specKeyAt (b.data.drop i) k = true →
      (∀ j, j < i → ∀ kj, specKeyAt (b.data.drop j) kj = false) →
      build_pull_request_title b = String.mk k) ∧
    ((∀ j k, specKeyAt (b.data.drop j) k = false) →
      build_pull_request_title b = b) := by
  constructor
  · intro i k hk hearlier
    have hm : reMatchIssueKeyAt (b.data.drop i) = some k := (reMatchIssueKeyAt_iff _ k).mpr hk
    have hnone : ∀ j, j < i → reMatchIssueKeyAt (b.data.drop j) = none :=
      fun j hj => reMatch_none_of_all_false (hearlier j hj)
    have hs := reSearch_of_matchAt b.data i k hm hnone
    simp only [build_pull_request_title, hs]
  · intro hall
    have hs := reSearch_none_of b.data (fun i => reMatch_none_of_all_false (hall i))
    simp only [build_pull_request_title, hs]

/-- Witness for C8: a branch name with the key embedded at position one,
whose default title is the key itself. -/
theorem build_pull_request_title_spec_w :
    build_pull_request_title titleInW = titleKeyW := by
  have h := (build_pull_request_title_spec titleInW).1 1 titleKeyW.data (by decide)
    (by
      intro j hj kj
      have hj0 : j = 0 := Nat.lt_one_iff.mp hj
      subst hj0
      exact specKeyAt_false_of_none (by decide) kj)
  rw [h]

/-- C1 (amended): on a string of the shape of the pull-request literal
followed by one or more digits, get_pull_request_ID returns the value of
the maximal digit run; on every other string it fails, but with an
unhandled AttributeError (group called on None), not with the
InvalidBranchError UserWarning of the error taxonomy. -/
theorem get_pull_request_ID_amended (s : String) :
    (∃ ds rest : List Char, s.data = prLit ++ ds ++ rest ∧ ds ≠ [] ∧
        (∀ c ∈ ds, c.isDigit = true) ∧ (∀ c, rest.head? = some c → c.isDigit = false) ∧
        get_pull_request_ID s = Except.ok (digitsToNat ds)) ∨
    ((∀ (d : Char) (rest : List Char), s.data = prLit ++ d :: rest → d.isDigit = false) ∧
      get_pull_request_ID s = Except.error PyExc.attributeError) := by
  rcases hp : litPre prLit s.data with _ | t
  · right
    constructor
    · intro d rest hEq
      exfalso
      have hsome : litPre prLit s.data = some (d :: rest) :=
        (litPre_eq_some prLit s.data (d :: rest)).mpr hEq
      rw [hp] at hsome
      cases hsome
    · simp only [get_pull_request_ID, reMatchPullRequestId, hp]
  · have hteq : s.data = prLit ++ t := (litPre_eq_some prLit s.data t).mp hp
    set ds := (splitWhile Char.isDigit t).1 with hdsdef
    set rest2 := (splitWhile Char.isDigit t).2 with hrest2def
    have hts : ds ++ rest2 = t := splitWhile_append Char.isDigit t
    by_cases hds : ds = []
    · right
      constructor
      · intro d rest hEq
        have hsome : litPre prLit s.data = some (d :: rest) :=
          (litPre_eq_some prLit s.data (d :: rest)).mpr hEq
        rw [hp] at hsome
        have ht : t = d :: rest := Option.some.inj hsome
        refine splitWhile_fst_nil Char.isDigit t d hds ?_
        rw [ht]
        rfl
      · simp only [get_pull_request_ID, reMatchPullRequestId, hp]
        rw [if_pos hds]
    · left
      refine ⟨ds, rest2, ?_, hds, ?_, ?_, ?_⟩
      · rw [hteq, ← hts]
        exact (List.append_assoc prLit ds rest2).symm
      · exact fun c hc => splitWhile_fst_mem Char.isDigit t c hc
      · exact fun c hc => splitWhile_snd_head Char.isDigit t c hc
      · simp only [get_pull_request_ID, reMatchPullRequestId, hp]
        rw [if_neg hds]

/-- Counterexample for C1 as stated: at the concrete input master the
extraction fails with the unhandled AttributeError, which is not the
InvalidBranchError UserWarning. -/
theorem get_pull_request_ID_not_invalid_branch :
    get_pull_request_ID masterLit = Except.error PyExc.attributeError ∧
    (Except.error (PyExc.userWarning msgInvalidBranch) : Except PyExc Nat) ≠
      Except.error PyExc.attributeError := by
  decide

/-- Witness for C1 (amended): the amended theorem applied at the concrete
input master, whose length rules out the digit-prefixed shape. -/
theorem get_pull_request_ID_amended_w :
    get_pull_request_ID masterLit = Except.error PyExc.attributeError := by
  rcases get_pull_request_ID_amended masterLit with ⟨ds, rest, hEq, hne, hdig, hrest, hres⟩ | ⟨hneg, herr⟩
  · exfalso
    have hlen : masterLit.data.length = ((prLit ++ ds) ++ rest).length := by rw [hEq]
    rw [List.length_append, List.length_append] at hlen
    have h6 : masterLit.data.length = 6 := by decide
    have h13 : prLit.length = 13 := by decide
    omega
  · exact herr

/-- C7: starting an update from inside the work directory fails with the
InWorkDirectoryError before any mutation is attempted: the trace of
attempted commands is empty. -/
theorem update_branch_guard (opts : Options) (env : GitEnv) (cwd branch : String)
    (h : in_work_dir env cwd = true) :
    update_branch opts env cwd branch = ([], Except.error (PyExc.userWarning msgInWorkDir)) := by
  simp only [update_branch, h, if_true]

/-- Witness for C7: the guard evaluated in an environment whose current
directory is a work directory. -/
theorem update_branch_guard_w :
    update_branch optsW envInWdW origW brW = ([], Except.error (PyExc.userWarning msgInWorkDir)) :=
  update_branch_guard optsW envInWdW origW brW (by decide)

/-- C6: when continue-update is invoked while conflicts are unresolved (the
commit for the merge method, or the continue-rebase for the rebase method,
still fails), it fails with the UnresolvedConflictError and performs
nothing beyond that one finishing attempt: no branch re-derivation and no
completion step (no directory switch, breadcrumb write, reset or checkout)
appears in the trace, so the retry is safe. -/
theorem continue_update_unresolved (opts : Options) (env : GitEnv) (cwd : String)
    (h : (opts.updateMethod = mergeLit ∧ env.commitOk cwd = false) ∨
      (opts.updateMethod = rebaseLit ∧ env.rebaseContinueOk cwd = false)) :
    (continue_update opts env cwd).2 = Except.error (PyExc.userWarning msgUpdateConflict) ∧
    ∀ e ∈ (continue_update opts env cwd).1,
      e = Eff.gitCommit cwd ∨ e = Eff.gitRebaseContinue cwd := by
  rcases h with ⟨hm, hc⟩ | ⟨hm, hc⟩
  · have h1 : continue_update opts env cwd =
        ([Eff.gitCommit cwd], Except.error (PyExc.userWarning msgUpdateConflict)) := by
      simp [continue_update, hm, hc]
    rw [h1]
    refine ⟨rfl, ?_⟩
    intro e he
    simp only [List.mem_singleton] at he
    exact Or.inl he
  · have hbm : (rebaseLit == mergeLit) = false := by decide
    have h1 : continue_update opts env cwd =
        ([Eff.gitRebaseContinue cwd], Except.error (PyExc.userWarning msgUpdateConflict)) := by
      simp [continue_update, hm, hbm, hc]
    rw [h1]
    refine ⟨rfl, ?_⟩
    intro e he
    simp only [List.mem_singleton] at he
    exact Or.inr he

/-- Witness for C6: continue-update with the merge method while the commit
still fails. -/
theorem continue_update_unresolved_w :
    (continue_update optsW envConflictW origW).2 =
      Except.error (PyExc.userWarning msgUpdateConflict) := by
  exact (continue_update_unresolved optsW envConflictW origW (Or.inl ⟨rfl, by decide⟩)).1

/-- Result shape of complete_update: it only ever returns a directory or a
UserWarning, never the unbound-local failure. -/
theorem complete_update_not_unbound (env : GitEnv) (cwd b : String) (v : String) :
    (complete_update env cwd b).2 ≠ Except.error (PyExc.unboundLocalError v) := by
  cases h1 : in_work_dir env cwd <;>
    cases h2 : env.checkoutMasterOk cwd <;>
      cases h3 : (env.branchAt (env.originalDirAt cwd) == b) <;>
        cases h4 : env.resetCleanOk (env.originalDirAt cwd) <;>
          cases h5 : env.checkoutOk (env.originalDirAt cwd) b <;>
            simp [complete_update, h1, h2, h3, h4, h5]

/-- Trace shape of complete_update: the completion step never attempts a
merge or rebase against master. -/
theorem complete_update_no_update_eff (env : GitEnv) (cwd b : String) (d : String) :
    Eff.gitMergeMaster d ∉ (complete_update env cwd b).1 ∧
    Eff.gitRebaseMaster d ∉ (complete_update env cwd b).1 := by
  cases h1 : in_work_dir env cwd <;>
    cases h2 : env.checkoutMasterOk cwd <;>
      cases h3 : (env.branchAt (env.originalDirAt cwd) == b) <;>
        simp [complete_update, h1, h2, h3]

/-- Counterexample for C10 as stated: with the fast-forward method value and
a successful checkout, update_branch does not abort with the unbound-local
failure: ret was assigned by the checkout, so the zero status skips the
conflict branch and the run reports success, while no merge or rebase was
performed. -/
theorem bad_method_counterexample :
    update_branch optsBadW envMasterW origW brW =
      ([Eff.gitCheckout origW brW], Except.ok origW) ∧
    (update_branch optsBadW envMasterW origW brW).2 ≠
      Except.error (PyExc.unboundLocalError retName) := by
  decide

/-- C10 (amended): with an update-method value that is neither merge nor
rebase, continue_update reads the never-assigned local ret and aborts with
the unhandled UnboundLocalError, which is not a UserWarning of the
taxonomy; but update_branch does not crash: ret was already assigned by the
checkout, so after a successful checkout the run falls through to the
completion step, the result is that of complete_update, and no merge or
rebase is ever attempted - a silent no-op update rather than a descriptive
failure. -/
theorem bad_method_fallthrough (opts : Options) (env : GitEnv) (cwd branch : String)
    (hm1 : opts.updateMethod ≠ mergeLit) (hm2 : opts.updateMethod ≠ rebaseLit)
    (hw : in_work_dir env cwd = false)
    (hreset : optTruthy opts.workDir = true → env.resetCleanOk (opts.workDir.getD cwd) = true)
    (hco : env.checkoutOk (if optTruthy opts.workDir then opts.workDir.getD cwd else cwd) branch = true) :
    continue_update opts env cwd = ([], Except.error (PyExc.unboundLocalError retName)) ∧
    (∀ m, continue_update opts env cwd ≠ ([], Except.error (PyExc.userWarning m))) ∧
    update_branch opts env cwd branch =
      ((if optTruthy opts.workDir then
          [Eff.osChdir (opts.workDir.getD cwd), Eff.gitResetClean (opts.workDir.getD cwd)]
        else []) ++
        Eff.gitCheckout (if optTruthy opts.workDir then opts.workDir.getD cwd else cwd) branch ::
        (complete_update env (if optTruthy opts.workDir then opts.workDir.getD cwd else cwd) branch).1,
        (complete_update env (if optTruthy opts.workDir then opts.workDir.getD cwd else cwd) branch).2) ∧
    (∀ d, Eff.gitMergeMaster d ∉ (update_branch opts env cwd branch).1 ∧
      Eff.gitRebaseMaster d ∉ (update_branch opts env cwd branch).1) ∧
    (update_branch opts env cwd branch).2 ≠ Except.error (PyExc.unboundLocalError retName) := by
  have hbm : (opts.updateMethod == mergeLit) = false := beq_eq_false_iff_ne.mpr hm1
  have hbr : (opts.updateMethod == rebaseLit) = false := beq_eq_false_iff_ne.mpr hm2
  have hcont : continue_update opts env cwd = ([], Except.error (PyExc.unboundLocalError retName)) := by
    simp [continue_update, hbm, hbr]
  have hupd : update_branch opts env cwd branch =
      ((if optTruthy opts.workDir then
          [Eff.osChdir (opts.workDir.getD cwd), Eff.gitResetClean (opts.workDir.getD cwd)]
        else []) ++
        Eff.gitCheckout (if optTruthy opts.workDir then opts.workDir.getD cwd else cwd) branch ::
        (complete_update env (if optTruthy opts.workDir then opts.workDir.getD cwd else cwd) branch).1,
        (complete_update env (if optTruthy opts.workDir then opts.workDir.getD cwd else cwd) branch).2) := by
    cases hwd : optTruthy opts.workDir with
    | false =>
      rw [hwd] at hco
      simp only [Bool.false_eq_true, if_false] at hco
      simp [update_branch, hw, hwd, hco, hbm, hbr]
    | true =>
      rw [hwd] at hco
      simp at hco
      have hrok := hreset hwd
      simp [update_branch, hw, hwd, hco, hbm, hbr, hrok]
  refine ⟨hcont, ?_, hupd, ?_, ?_⟩
  · intro m hcontra
    rw [hcont] at hcontra
    simp at hcontra
  · intro d
    cases hwd : optTruthy opts.workDir with
    | false =>
      have hc := complete_update_no_update_eff env cwd branch d
      rw [hupd]
      simp [hwd, hc.1, hc.2]
    | true =>
      have hc := complete_update_no_update_eff env (opts.workDir.getD cwd) branch d
      rw [hupd]
      simp [hwd, hc.1, hc.2]
  · rw [hupd]
    cases hwd : optTruthy opts.workDir with
    | false =>
      simpa [hwd] using complete_update_not_unbound env cwd branch retName
    | true =>
      simpa [hwd] using complete_update_not_unbound env (opts.workDir.getD cwd) branch retName

/-- Witness for C10 (amended): the fast-forward method value with every
checkout succeeding: the continuation crashes with the unbound local while
the update falls through and reports success with no update performed. -/
theorem bad_method_fallthrough_w :
    continue_update optsBadW envMasterW origW =
      ([], Except.error (PyExc.unboundLocalError retName)) ∧
    update_branch optsBadW envMasterW origW brW =
      ([Eff.gitCheckout origW brW], Except.ok origW) := by
  have h := bad_method_fallthrough optsBadW envMasterW origW brW (by decide) (by decide)
    (by decide) (fun hh => absurd hh (by decide)) (by decide)
  refine ⟨h.1, ?_⟩
  rw [h.2.2.1]
  decide

/-- C5: command-merge and command-close both fail with the
InvalidBranchError before any local or remote mutation (empty trace)
whenever the current branch name does not start with the pull-request-
literal; in particular on the branch master. -/
theorem merge_close_guard (opts : Options) (env : GitEnv) (cwd repo : String)
    (comment : Option String)
    (h : ∀ t : List Char, (env.branchAt cwd).data ≠ prLit ++ t) :
    command_merge opts env cwd repo comment =
      ([], Except.error (PyExc.userWarning msgInvalidBranch)) ∧
    command_close opts env cwd repo comment =
      ([], Except.error (PyExc.userWarning msgInvalidBranch)) := by
  have htake : ¬((env.branchAt cwd).data.take 13 = prLit) := by
    intro ht
    apply h ((env.branchAt cwd).data.drop 13)
    conv_lhs => rw [← List.take_append_drop 13 (env.branchAt cwd).data]
    rw [ht]
  have hb : ((env.branchAt cwd).data.take 13 == prLit) = false := beq_eq_false_iff_ne.mpr htake
  have hguard : get_current_branch_name env cwd true =
      Except.error (PyExc.userWarning msgInvalidBranch) := by
    simp [get_current_branch_name, hb]
  constructor
  · simp only [command_merge, hguard]
  · simp only [command_close, hguard]

/-- Witness for C5: both commands evaluated on the branch master. -/
theorem merge_close_guard_w :
    command_merge optsW envMasterW origW origW none =
      ([], Except.error (PyExc.userWarning msgInvalidBranch)) ∧
    command_close optsW envMasterW origW origW none =
      ([], Except.error (PyExc.userWarning msgInvalidBranch)) := by
  refine merge_close_guard optsW envMasterW origW origW none ?_
  intro t ht
  have hlen : (envMasterW.branchAt origW).data.length = (prLit ++ t).length := by rw [ht]
  rw [List.length_append] at hlen
  have h6 : (envMasterW.branchAt origW).data.length = 6 := by decide
  have h13 : prLit.length = 13 := by decide
  omega

/-- Behaviour of command_submit for any reviewer value: the NoReviewerError
with an empty trace occurs exactly when the passed reviewer and the
upstream default are both none-or-empty. -/
theorem submit_helper (opts : Options) (env : GitEnv) (cwd repo user : String)
    (body title : Option String) : ∀ rv : Option String,
    ((command_submit opts env cwd repo user rv body title).2 =
        Except.error (PyExc.userWarning msgNoReviewer) ↔
      (noneOrEmpty rv && noneOrEmpty env.upstreamRepo) = true) ∧
    ((noneOrEmpty rv && noneOrEmpty env.upstreamRepo) = true →
      (command_submit opts env cwd repo user rv body title).1 = []) := by
  intro rv
  by_cases hnv : noneOrEmpty rv = true
  · rcases hupc : env.upstreamRepo with _ | u
    · have heq : command_submit opts env cwd repo user rv body title =
          ([], Except.error (PyExc.userWarning msgNoReviewer)) := by
        simp [command_submit, hnv, hupc]
      rw [heq]
      have hun : noneOrEmpty (none : Option String) = true := rfl
      simp [hnv, hun]
    · by_cases hue : (u == emptyStr) = true
      · have heq : command_submit opts env cwd repo user rv body title =
            ([], Except.error (PyExc.userWarning msgNoReviewer)) := by
          simp [command_submit, hnv, hupc, hue]
        rw [heq]
        have hus : noneOrEmpty (some u) = true := hue
        simp [hnv, hus]
      · have hue2 : (u == emptyStr) = false := by
          cases h2 : (u == emptyStr)
          · rfl
          · exact absurd h2 hue
        have hus : noneOrEmpty (some u) = false := hue2
        have hne2 : (command_submit opts env cwd repo user rv body title).2 ≠
            Except.error (PyExc.userWarning msgNoReviewer) := by
          cases hpush : env.pushOk cwd (env.branchAt cwd) with
          | false =>
            simp [command_submit, hnv, hupc, hue2, hpush]
            decide
          | true =>
            cases hgh : env.githubOk with
            | false =>
              simp [command_submit, github_request, hnv, hupc, hue2, hpush, hgh]
              decide
            | true =>
              simp [command_submit, github_request, hnv, hupc, hue2, hpush, hgh]
        refine ⟨⟨fun hc => absurd hc hne2, fun habs => ?_⟩, fun habs => ?_⟩
        · rw [hus] at habs
          simp at habs
        · rw [hus] at habs
          simp at habs
  · have hnv2 : noneOrEmpty rv = false := by
      cases h2 : noneOrEmpty rv
      · rfl
      · exact absurd h2 hnv
    rcases rv with _ | v
    · exfalso
      simp [noneOrEmpty] at hnv2
    · have hv : (v == emptyStr) = false := by
        simpa [noneOrEmpty] using hnv2
      have hne2 : (command_submit opts env cwd repo user (some v) body title).2 ≠
          Except.error (PyExc.userWarning msgNoReviewer) := by
        cases hpush : env.pushOk cwd (env.branchAt cwd) with
        | false =>
          simp [command_submit, hnv2, hv, hpush]
          decide
        | true =>
          cases hgh : env.githubOk with
          | false =>
            simp [command_submit, github_request, hnv2, hv, hpush, hgh]
            decide
          | true =>
            simp [command_submit, github_request, hnv2, hv, hpush, hgh]
      refine ⟨⟨fun hc => absurd hc hne2, fun habs => ?_⟩, fun habs => ?_⟩
      · rw [hnv2] at habs
        simp at habs
      · rw [hnv2] at habs
        simp at habs

/-- C9: submit fails with the NoReviewerError, with an empty mutation trace
(before the push and before the pull-request creation), exactly when the
command-line reviewer argument, the configured reviewer, and the upstream
default all fail to resolve to a nonempty value. -/
theorem submit_no_reviewer (opts : Options) (env : GitEnv) (cwd repo user : String)
    (cmdline cfg : Option String) (body title : Option String) :
    ((command_submit opts env cwd repo user (resolve_reviewer cmdline cfg) body title).2 =
        Except.error (PyExc.userWarning msgNoReviewer) ↔
      (noneOrEmpty cmdline && noneOrEmpty cfg && noneOrEmpty env.upstreamRepo) = true) ∧
    ((noneOrEmpty cmdline && noneOrEmpty cfg && noneOrEmpty env.upstreamRepo) = true →
      (command_submit opts env cwd repo user (resolve_reviewer cmdline cfg) body title).1 = []) := by
  have hresolve : noneOrEmpty (resolve_reviewer cmdline cfg) =
      (noneOrEmpty cmdline && noneOrEmpty cfg) := by
    simp only [resolve_reviewer]
    cases h : noneOrEmpty cmdline
    · simp [h]
    · simp [h]
  have h := submit_helper opts env cwd repo user body title (resolve_reviewer cmdline cfg)
  rw [hresolve] at h
  exact h

/-- Witness for C9: no reviewer argument, no configured reviewer and no
upstream remote: submit fails with the NoReviewerError and mutates
nothing. -/
theorem submit_no_reviewer_w :
    (command_submit optsW envMasterW origW origW origW (resolve_reviewer none none) none none).2 =
      Except.error (PyExc.userWarning msgNoReviewer) ∧
    (command_submit optsW envMasterW origW origW origW (resolve_reviewer none none) none none).1 =
      [] := by
  have h := submit_no_reviewer optsW envMasterW origW origW origW none none none none
  exact ⟨h.1.mpr (by decide), h.2 (by decide)⟩

/-- Counterexample for C2 as stated: on a successful update run through the
work directory, the process switches its active directory into the work
directory (the osChdir effect), yet no breadcrumb write with the
work-directory path occurs anywhere in the run: the switch into the work
directory is not recorded. -/
theorem breadcrumb_counterexample :
    Eff.osChdir wdW ∈ (update_branch optsWdW envW origW brW).1 ∧
    Eff.breadcrumb wdW ∉ (update_branch optsWdW envW origW brW).1 := by
  decide

/-- C2 (amended): the breadcrumb file is written on a conflict while the
work directory is in use (recording the work-directory path) and on
completion, immediately after the switch back to the primary directory
(recording that path); each write truncates and overwrites the single file,
so the final content is the last path written, independent of what was
there before; but the switch into the work directory at the start of an
update is performed without a breadcrumb write: the trace begins with the
directory change followed directly by the hard reset. -/
theorem breadcrumb_discipline (opts : Options) (env : GitEnv) (cwd branch wd : String)
    (hwd : opts.workDir = some wd) (hne : optTruthy opts.workDir = true)
    (hnotin : in_work_dir env cwd = false)
    (hreset : env.resetCleanOk wd = true) (hco : env.checkoutOk wd branch = true)
    (hmeth : opts.updateMethod = mergeLit ∨ opts.updateMethod = rebaseLit) :
    (((opts.updateMethod = mergeLit ∧ env.mergeMasterOk wd = false) ∨
        (opts.updateMethod = rebaseLit ∧ env.rebaseMasterOk wd = false)) →
      Eff.breadcrumb wd ∈ (update_branch opts env cwd branch).1) ∧
    ((in_work_dir env wd = true ∧ env.checkoutMasterOk wd = true) →
      ∃ pre post, (complete_update env wd branch).1 =
        pre ++ Eff.osChdir (env.originalDirAt wd) ::
          Eff.breadcrumb (env.originalDirAt wd) :: post) ∧
    (∀ (t : List Eff) (d s : String), runBreadcrumb (t ++ [Eff.breadcrumb d]) s = d) ∧
    (∃ rest, (update_branch opts env cwd branch).1 =
      Eff.osChdir wd :: Eff.gitResetClean wd :: rest) := by
  have hget : opts.workDir.getD cwd = wd := by rw [hwd]; rfl
  refine ⟨?_, ?_, fun t d s => runBreadcrumb_last t d s, ?_⟩
  · rintro (⟨hm, hcf⟩ | ⟨hm, hcf⟩)
    · have h1 : (update_branch opts env cwd branch).1 =
          [Eff.osChdir wd, Eff.gitResetClean wd, Eff.gitCheckout wd branch,
            Eff.gitMergeMaster wd, Eff.breadcrumb wd] := by
        simp [update_branch, hnotin, hne, hget, hreset, hco, hm, hcf]
      rw [h1]
      simp
    · have hbm : (rebaseLit == mergeLit) = false := by decide
      have h1 : (update_branch opts env cwd branch).1 =
          [Eff.osChdir wd, Eff.gitResetClean wd, Eff.gitCheckout wd branch,
            Eff.gitRebaseMaster wd, Eff.breadcrumb wd] := by
        simp [update_branch, hnotin, hne, hget, hreset, hco, hm, hbm, hcf]
      rw [h1]
      simp
  · rintro ⟨hinwd, hcm⟩
    cases hb2 : (env.branchAt (env.originalDirAt wd) == branch) with
    | true =>
      have h2 : (complete_update env wd branch).1 =
          [Eff.gitCheckoutMaster wd, Eff.osChdir (env.originalDirAt wd),
            Eff.breadcrumb (env.originalDirAt wd), Eff.gitResetClean (env.originalDirAt wd)] := by
        simp [complete_update, hinwd, hcm, hb2]
      exact ⟨[Eff.gitCheckoutMaster wd], [Eff.gitResetClean (env.originalDirAt wd)], by rw [h2]; rfl⟩
    | false =>
      have h2 : (complete_update env wd branch).1 =
          [Eff.gitCheckoutMaster wd, Eff.osChdir (env.originalDirAt wd),
            Eff.breadcrumb (env.originalDirAt wd), Eff.gitCheckout (env.originalDirAt wd) branch] := by
        simp [complete_update, hinwd, hcm, hb2]
      exact ⟨[Eff.gitCheckoutMaster wd], [Eff.gitCheckout (env.originalDirAt wd) branch], by rw [h2]; rfl⟩
  · rcases hmeth with hm | hm
    · cases hout : env.mergeMasterOk wd with
      | false =>
        have h1 : (update_branch opts env cwd branch).1 =
            Eff.osChdir wd :: Eff.gitResetClean wd :: [Eff.gitCheckout wd branch,
              Eff.gitMergeMaster wd, Eff.breadcrumb wd] := by
          simp [update_branch, hnotin, hne, hget, hreset, hco, hm, hout]
        exact ⟨_, h1⟩
      | true =>
        have h1 : (update_branch opts env cwd branch).1 =
            Eff.osChdir wd :: Eff.gitResetClean wd :: (Eff.gitCheckout wd branch ::
              Eff.gitMergeMaster wd :: (complete_update env wd branch).1) := by
          simp [update_branch, hnotin, hne, hget, hreset, hco, hm, hout]
        exact ⟨_, h1⟩
    · have hbm : (rebaseLit == mergeLit) = false := by decide
      cases hout : env.rebaseMasterOk wd with
      | false =>
        have h1 : (update_branch opts env cwd branch).1 =
            Eff.osChdir wd :: Eff.gitResetClean wd :: [Eff.gitCheckout wd branch,
              Eff.gitRebaseMaster wd, Eff.breadcrumb wd] := by
          simp [update_branch, hnotin, hne, hget, hreset, hco, hm, hbm, hout]
        exact ⟨_, h1⟩
      | true =>
        have h1 : (update_branch opts env cwd branch).1 =
            Eff.osChdir wd :: Eff.gitResetClean wd :: (Eff.gitCheckout wd branch ::
              Eff.gitRebaseMaster wd :: (complete_update env wd branch).1) := by
          simp [update_branch, hnotin, hne, hget, hreset, hco, hm, hbm, hout]
        exact ⟨_, h1⟩

/-- Witness for C2 (amended): with the work directory configured and a
conflicting merge, the conflict run writes the work-directory breadcrumb,
and the completion step writes the primary-directory breadcrumb right
after switching back. -/
theorem breadcrumb_discipline_w :
    Eff.breadcrumb wdW ∈ (update_branch optsWdW envCfW origW brW).1 ∧
    (∃ pre post, (complete_update envCfW wdW brW).1 =
      pre ++ Eff.osChdir (envCfW.originalDirAt wdW) ::
        Eff.breadcrumb (envCfW.originalDirAt wdW) :: post) := by
  have h := breadcrumb_discipline optsWdW envCfW origW brW wdW rfl (by decide) (by decide)
    (by decide) (by decide) (Or.inl rfl)
  exact ⟨h.1 (Or.inl ⟨rfl, by decide⟩), h.2.1 ⟨by decide, by decide⟩⟩

end GitPR
